import Mathlib

/-!
Shallow embedding of `src/main.py` (E2B sandbox orchestrator) and proofs of the
specification claims.  External effects (the E2B gateway, the asyncio clock,
`random`) are modelled as oracles supplied to the pure functions; each function
returns the trace of observable events it would emit along with its result.
-/

set_option maxRecDepth 10000

namespace E2B

/-- Python exceptions relevant to the embedded fragments.  `valueError` is what
`random.randint(a, b)` raises when `b < a`. -/
inductive PyErr where
  | valueError
deriving DecidableEq, Repr

/-- Observable events of the program: one constructor per print/sleep/task-step
in `main.py`, in the positions they occur in the source. -/
inductive Event where
  | attemptStart (attempt : Nat)
  | sessionStarted
  | attemptFailed (attempt : Nat)
  | failSleep (d : Int)
  | abandonedKey
  | launched (runTime : Int) (s : Nat)
  | runTimeEnded
  | execError
  | sessionClosed (s : Nat)
  | cooldownSleep (d : Int)
  | spawn (i : Nat) (key : String)
  | gracePause (d : Int)
deriving DecidableEq, Repr

/-- Model of `random.randint(a, b)`: an integer uniform in the inclusive range
`[a, b]`, the randomness supplied by the seed `r`; raises `ValueError` when the
range is empty (`b < a`), exactly as CPython does. -/
def randintE (a b : Int) (r : Nat) : Except PyErr Int :=
  if a ≤ b then .ok (a + ((r % (b - a + 1).toNat : Nat) : Int)) else .error .valueError

/-- `MAX_CONNECTION_ATTEMPTS = 10` from `main.py`. -/
def MAX_CONNECTION_ATTEMPTS : Nat := 10

/-- Outcome of one `AsyncSandbox.create` call: it either raises, or returns a
value (a sandbox object, or in principle `None` — Python's falsy case that the
source guards against at `if not sbx_instance`). Sessions are identified by a
`Nat` id. -/
inductive OpenResult where
  | raised
  | returned (s : Option Nat)
deriving DecidableEq, Repr

/-- How the command-execution `try` block (lines 103-117 of `main.py`) ends:
`launchRaised` — `commands.run`/`get_info` raised; `completed` — `proc.wait()`
finished within the deadline; `deadlineElapsed` — `asyncio.wait_for` raised
`TimeoutError`; `waitRaised` — `proc.wait()` raised some other exception. -/
inductive ExecOutcome where
  | launchRaised
  | completed
  | deadlineElapsed
  | waitRaised
deriving DecidableEq, Repr

/-- How the connection retry `for` loop (lines 79-94) is left: `abandonedReturn`
is the `return` on the last failed attempt; `fellThrough sbx` is reaching the
code after the loop with the current value of `sbx_instance`. -/
inductive RetryExit where
  | abandonedReturn
  | fellThrough (sbx : Option Nat)
deriving DecidableEq, Repr

/-- Result of one iteration of the outer `while True` loop of
`run_sandbox_lifecycle`. -/
inductive IterResult where
  | retAbandoned
  | retSafeguard
  | nextCycle
deriving DecidableEq, Repr

/-- Result of running the lifecycle for a bounded number of outer-loop
iterations. -/
inductive LifeExit where
  | returnedAbandoned
  | returnedSafeguard
  | fuelOut
deriving DecidableEq, Repr

/-- Oracle for one iteration of the outer loop: per-attempt gateway outcomes,
per-attempt randomness for the failure cooldown, randomness for the run/downtime
samples, and the fate of the execution phase. -/
structure CycleEnv where
  openRes : Nat → OpenResult
  backoffSeed : Nat → Nat
  runSeed : Nat
  downSeed : Nat
  outcome : ExecOutcome

/-- The four timing CLI parameters of `main.py`. -/
structure Timing where
  run_time_min : Int
  run_time_max : Int
  downtime_min : Int
  downtime_max : Int
deriving DecidableEq, Repr

/-- The connection retry loop, lines 79-94 of `main.py`:
`for attempt in range(MAX_CONNECTION_ATTEMPTS)` with `sbx_instance` initially
`None`; success breaks, a failure on the last attempt returns (abandonment),
any other failure sleeps `random.randint(60, 250)` and retries.  `attempt` is
the 0-based loop index; the fuel argument counts the remaining iterations of
the `range`. -/
def retryGo (openRes : Nat → OpenResult) (bSeed : Nat → Nat) (attempt : Nat) :
    Nat → Except PyErr (RetryExit × List Event)
  | 0 => .ok (.fellThrough none, [])
  | remaining + 1 =>
    match openRes attempt with
    | .returned s => .ok (.fellThrough s, [.attemptStart attempt, .sessionStarted])
    | .raised =>
      if attempt < MAX_CONNECTION_ATTEMPTS - 1 then
        match randintE 60 250 (bSeed attempt) with
        | .error e => .error e
        | .ok d =>
          match retryGo openRes bSeed (attempt + 1) remaining with
          | .error e => .error e
          | .ok (r, evs) =>
            .ok (r, [.attemptStart attempt, .attemptFailed attempt, .failSleep d] ++ evs)
      else
        .ok (.abandonedReturn, [.attemptStart attempt, .attemptFailed attempt, .abandonedKey])

/-- Events of the execution phase (lines 99-120): the `async with` block, the
`except` clauses, and the final cooldown sleep.  The context manager closes the
session when the block is exited — before the `except` handler's message. -/
def execPhase (s : Nat) (runTime downtime : Int) (o : ExecOutcome) : List Event :=
  (match o with
   | .launchRaised => [.sessionClosed s, .execError]
   | .completed => [.launched runTime s, .sessionClosed s]
   | .deadlineElapsed => [.launched runTime s, .sessionClosed s, .runTimeEnded]
   | .waitRaised => [.launched runTime s, .sessionClosed s, .execError])
  ++ [.cooldownSleep downtime]

/-- One iteration of the outer `while True` loop of `run_sandbox_lifecycle`:
retry loop, the `if not sbx_instance: return` safeguard, then
`run_time = random.randint(run_time_min, run_time_max)`,
`downtime = random.randint(downtime_min, downtime_max)` and the execution
phase. -/
def lifecycleIter (t : Timing) (env : CycleEnv) : Except PyErr (IterResult × List Event) :=
  match retryGo env.openRes env.backoffSeed 0 MAX_CONNECTION_ATTEMPTS with
  | .error e => .error e
  | .ok (.abandonedReturn, evs) => .ok (.retAbandoned, evs)
  | .ok (.fellThrough none, evs) => .ok (.retSafeguard, evs)
  | .ok (.fellThrough (some s), evs) =>
    match randintE t.run_time_min t.run_time_max env.runSeed with
    | .error e => .error e
    | .ok rt =>
      match randintE t.downtime_min t.downtime_max env.downSeed with
      | .error e => .error e
      | .ok dt => .ok (.nextCycle, evs ++ execPhase s rt dt env.outcome)

/-- `run_sandbox_lifecycle`, unrolled for a bounded number of outer-loop
iterations; `i` indexes the cycles (cycle `i` uses the oracle `envs i`). -/
def lifecycleRun (t : Timing) (envs : Nat → CycleEnv) (i : Nat) :
    Nat → Except PyErr (LifeExit × List Event)
  | 0 => .ok (.fuelOut, [])
  | fuel + 1 =>
    match lifecycleIter t (envs i) with
    | .error e => .error e
    | .ok (.retAbandoned, evs) => .ok (.returnedAbandoned, evs)
    | .ok (.retSafeguard, evs) => .ok (.returnedSafeguard, evs)
    | .ok (.nextCycle, evs) =>
      match lifecycleRun t envs (i + 1) fuel with
      | .error e => .error e
      | .ok (r, evs2) => .ok (r, evs ++ evs2)

/-- `ENV_PREFIX = "E2B_KEY_"` from `main.py`. -/
def ENV_PFX : String := "E2B_KEY_"

/-- Model of Python `str.strip()` with no argument: remove leading and trailing
whitespace. -/
def pyStrip (s : String) : String :=
  String.mk (((s.data.dropWhile Char.isWhitespace).reverse.dropWhile Char.isWhitespace).reverse)

/-- `env_keys` from `main.py`: all environment-variable values whose names
start with the prefix and whose stripped value is non-empty (`v.strip()` is
truthy).  The environment is modelled as a list of name/value pairs. -/
def env_keys (environ : List (String × String)) : List String :=
  (environ.filter (fun kv => kv.1.startsWith ENV_PFX && pyStrip kv.2 != "")).map (fun kv => kv.2)

/-- The deduplication loop of `main_async` (lines 134-139): iterate the
concatenated source, appending each key not yet in `seen` to both `keys` and
`seen`.  In the source `seen` is a `set` queried by membership; here it is the
list of inserted elements. -/
def dedupLoop (src keys seen : List String) : List String :=
  match src with
  | [] => keys
  | k :: rest =>
    if k ∈ seen then dedupLoop rest keys seen
    else dedupLoop rest (keys ++ [k]) (seen ++ [k])

/-- The Key Registry: `env_keys() + (args.key or [])` deduplicated first-seen. -/
def registryKeys (environ : List (String × String)) (overrides : List String) : List String :=
  dedupLoop (env_keys environ ++ overrides) [] []

/-- The `argparse` result of `main.py`: `--key` is `None` when absent, else the
appended list; the four timing options are ints. -/
structure Args where
  key : Option (List String)
  run_time_min : Int
  run_time_max : Int
  downtime_min : Int
  downtime_max : Int

/-- How the startup part of `main_async` ends: `configExit msg` models
`sys.exit(msg)` (message printed, non-zero status), `proceed keys` models
reaching the task-launching loop with the deduplicated keys. -/
inductive MainOutcome where
  | configExit (msg : String)
  | proceed (keys : List String)
deriving DecidableEq, Repr

/-- Lines 128-142 of `main_async`: min/max validation, key collection,
empty-key check — everything before the first task is created. -/
def mainSetup (environ : List (String × String)) (a : Args) : MainOutcome :=
  if a.run_time_min > a.run_time_max then
    .configExit "Error: --run-time-min cannot be greater than --run-time-max"
  else if a.downtime_min > a.downtime_max then
    .configExit "Error: --downtime-min cannot be greater than --downtime-max"
  else
    let keys := registryKeys environ (a.key.getD [])
    if keys = [] then .configExit "No API keys found — set E2B_KEY_* or pass --key"
    else .proceed keys

/-- Process exit status produced by the startup phase: `sys.exit(str)` exits
with status 1; `proceed` does not exit. -/
def sysExitStatus : MainOutcome → Option Nat
  | .configExit _ => some 1
  | .proceed _ => none

/-- The task-launching loop of `main_async` (lines 147-161):
`for i, k in enumerate(count())` breaking at `i >= len(keys)`; creates the task
for `keys[i]`, then, when `i < len(keys) - 1`, sleeps
`random.randint(30, 45)`.  The fuel bounds the iterations of the otherwise
unbounded `count()`. -/
def launchLoop (keys : List String) (sSeed : Nat → Nat) (i : Nat) :
    Nat → Except PyErr (List Event)
  | 0 => .ok []
  | fuel + 1 =>
    if keys.length ≤ i then .ok []
    else if i < keys.length - 1 then
      match randintE 30 45 (sSeed i) with
      | .error e => .error e
      | .ok g =>
        match launchLoop keys sSeed (i + 1) fuel with
        | .error e => .error e
        | .ok evs => .ok (Event.spawn i (keys.getD i "") :: Event.gracePause g :: evs)
    else
      match launchLoop keys sSeed (i + 1) fuel with
      | .error e => .error e
      | .ok evs => .ok (Event.spawn i (keys.getD i "") :: evs)

/-- The scheduler trace for a key list: `launchLoop` started at index 0 with
enough fuel to cover the `break`. -/
def launchTrace (keys : List String) (sSeed : Nat → Nat) : Except PyErr (List Event) :=
  launchLoop keys sSeed 0 (keys.length + 1)

/-- `main_async` up to the creation of all tasks: either a config exit with an
empty trace (nothing scheduled), or the scheduler trace. -/
def mainRun (environ : List (String × String)) (a : Args) (sSeed : Nat → Nat) :
    Except PyErr (Option String × List Event) :=
  match mainSetup environ a with
  | .configExit msg => .ok (some msg, [])
  | .proceed keys =>
    match launchTrace keys sSeed with
    | .error e => .error e
    | .ok evs => .ok (none, evs)

/-- Semantics of `await asyncio.gather(*tasks)` with the default
`return_exceptions=False` over the tasks' final outcomes: the first failing
outcome propagates; otherwise all results are collected in order. -/
def gatherSem {α : Type} : List (Except PyErr α) → Except PyErr (List α)
  | [] => .ok []
  | .error e :: _ => .error e
  | .ok a :: rest =>
    match gatherSem rest with
    | .error e => .error e
    | .ok as2 => .ok (a :: as2)

/-- The outcome of controller task `i` for each of `n` keys: each task is an
independent `run_sandbox_lifecycle` run on its own oracle column `envss i`. -/
def taskOutcomes (t : Timing) (envss : Nat → Nat → CycleEnv) (n fuel : Nat) :
    List (Except PyErr (LifeExit × List Event)) :=
  (List.range n).map (fun i => lifecycleRun t (envss i) 0 fuel)

/- ── Event classifiers and spec-side reference definitions ── -/

/-- True on task-creation events. -/
def isSpawnEv : Event → Bool
  | .spawn _ _ => true
  | _ => false

/-- True on stagger-pause events. -/
def isPauseEv : Event → Bool
  | .gracePause _ => true
  | _ => false

/-- True on session-open attempts. -/
def isAttemptStartEv : Event → Bool
  | .attemptStart _ => true
  | _ => false

/-- True on backoff sleeps after a failed attempt. -/
def isFailSleepEv : Event → Bool
  | .failSleep _ => true
  | _ => false

/-- True on the events the connection retry loop can emit. -/
def isRetryEv : Event → Bool
  | .attemptStart _ => true
  | .sessionStarted => true
  | .attemptFailed _ => true
  | .failSleep _ => true
  | .abandonedKey => true
  | _ => false

/-- The task index and key of a spawn event. -/
def spawnOf : Event → Option (Nat × String)
  | .spawn i k => some (i, k)
  | _ => none

/-- Checks the shape spawn, pause, spawn, pause, …, spawn: a pause between each
pair of successive spawns, none before the first or after the last. -/
def altSpawnPause : List Event → Bool
  | [] => false
  | [e] => isSpawnEv e
  | e :: f :: rest => isSpawnEv e && isPauseEv f && altSpawnPause rest

/-- Modelled from the spec: first-seen deduplication — keep each element's
first occurrence, deleting the later duplicates.  Reference definition for the
Key Registry claim. -/
def specFirstSeen : List String → List String
  | [] => []
  | k :: rest => k :: specFirstSeen (rest.filter (fun x => decide ¬x = k))
termination_by l => l.length
decreasing_by
  simp only [List.length_cons]
  exact Nat.lt_succ_of_le (List.length_filter_le _ _)

/-- Modelled from the spec: the staggered-launch trace for keys
`keys[i], …, keys[i+n-1]` — spawns interleaved with `[30,45]`-second pauses,
one pause between each pair of successive spawns. -/
def specLaunch (keys : List String) (sSeed : Nat → Nat) : Nat → Nat → List Event
  | _, 0 => []
  | i, n + 1 =>
    if n = 0 then [Event.spawn i (keys.getD i "")]
    else
      Event.spawn i (keys.getD i "") ::
        Event.gracePause (30 + ((sSeed i % 16 : Nat) : Int)) ::
          specLaunch keys sSeed (i + 1) n

/- ── Helper lemmas ── -/

lemma randintE_ok {a b : Int} (h : a ≤ b) (r : Nat) :
    randintE a b r = .ok (a + Int.ofNat (r % (b - a + 1).toNat)) := by
  simp [randintE, h]

lemma randintE_bounds {a b v : Int} {r : Nat} (hab : a ≤ b)
    (h : randintE a b r = .ok v) : a ≤ v ∧ v ≤ b := by
  rw [randintE_ok hab r] at h
  simp only [Except.ok.injEq] at h
  subst h
  have hlt : r % (b - a + 1).toNat < (b - a + 1).toNat := Nat.mod_lt _ (by omega)
  simp only [Int.ofNat_eq_natCast] at *
  omega

lemma isOkE_exists {α : Type} {o : Except PyErr α} (h : o.isOk = true) : ∃ v, o = .ok v := by
  cases o with
  | error e => simp [Except.isOk, Except.toBool] at h
  | ok v => exact ⟨v, rfl⟩

lemma retryGo_isOk (openRes : Nat → OpenResult) (bSeed : Nat → Nat) :
    ∀ fuel attempt, (retryGo openRes bSeed attempt fuel).isOk = true := by
  intro fuel
  induction fuel with
  | zero => intro attempt; rfl
  | succ n ih =>
    intro attempt
    cases hor : openRes attempt with
    | returned s => simp [retryGo, hor, Except.isOk, Except.toBool]
    | raised =>
      by_cases hlt : attempt < MAX_CONNECTION_ATTEMPTS - 1
      · simp only [retryGo, hor, hlt, if_true]
        rw [randintE_ok (by norm_num : (60:Int) ≤ 250)]
        have hi := ih (attempt + 1)
        cases hrec : retryGo openRes bSeed (attempt + 1) n with
        | error e => rw [hrec] at hi; simp [Except.isOk, Except.toBool] at hi
        | ok out => obtain ⟨r, evs⟩ := out; rfl
      · simp [retryGo, hor, hlt, Except.isOk, Except.toBool]

lemma retryGo_ok (openRes : Nat → OpenResult) (bSeed : Nat → Nat) (fuel attempt : Nat) :
    ∃ out, retryGo openRes bSeed attempt fuel = .ok out :=
  isOkE_exists (retryGo_isOk openRes bSeed fuel attempt)

lemma retryGo_events (openRes : Nat → OpenResult) (bSeed : Nat → Nat) :
    ∀ fuel attempt r evs, retryGo openRes bSeed attempt fuel = .ok (r, evs) →
      ∀ e ∈ evs, isRetryEv e = true := by
  intro fuel
  induction fuel with
  | zero =>
    intro attempt r evs h e he
    simp only [retryGo, Except.ok.injEq, Prod.mk.injEq] at h
    rw [← h.2] at he
    simp at he
  | succ n ih =>
    intro attempt r evs h e he
    cases hor : openRes attempt with
    | returned s =>
      simp only [retryGo, hor, Except.ok.injEq, Prod.mk.injEq] at h
      rw [← h.2] at he
      rcases List.mem_pair.mp he with rfl | rfl <;> rfl
    | raised =>
      by_cases hlt : attempt < MAX_CONNECTION_ATTEMPTS - 1
      · rw [show retryGo openRes bSeed attempt (n + 1) =
            (match randintE 60 250 (bSeed attempt) with
             | .error e => .error e
             | .ok d =>
               match retryGo openRes bSeed (attempt + 1) n with
               | .error e => .error e
               | .ok (r, evs) =>
                 .ok (r, [.attemptStart attempt, .attemptFailed attempt, .failSleep d] ++ evs))
            from by simp [retryGo, hor, hlt]] at h
        rw [randintE_ok (by norm_num : (60:Int) ≤ 250)] at h
        cases hrec : retryGo openRes bSeed (attempt + 1) n with
        | error e2 => rw [hrec] at h; exact absurd h (by simp)
        | ok out =>
          obtain ⟨r2, evs2⟩ := out
          rw [hrec] at h
          simp only [Except.ok.injEq, Prod.mk.injEq] at h
          rw [← h.2] at he
          rcases List.mem_append.mp he with hm | hm
          · rcases List.mem_cons.mp hm with rfl | hm
            · rfl
            · rcases List.mem_cons.mp hm with rfl | hm
              · rfl
              · rcases List.mem_singleton.mp hm with rfl; rfl
          · exact ih (attempt + 1) r2 evs2 hrec e hm
      · simp only [retryGo, hor, hlt, if_false, Except.ok.injEq, Prod.mk.injEq] at h
        rw [← h.2] at he
        rcases List.mem_cons.mp he with rfl | hm
        · rfl
        · rcases List.mem_cons.mp hm with rfl | hm
          · rfl
          · rcases List.mem_singleton.mp hm with rfl; rfl

lemma retryGo_succ_returned {openRes : Nat → OpenResult} {bSeed : Nat → Nat}
    {attempt n : Nat} {s : Option Nat} (hor : openRes attempt = .returned s) :
    retryGo openRes bSeed attempt (n + 1) =
      .ok (.fellThrough s, [.attemptStart attempt, .sessionStarted]) := by
  simp [retryGo, hor]

lemma retryGo_succ_raised_last {openRes : Nat → OpenResult} {bSeed : Nat → Nat}
    {attempt n : Nat} (hor : openRes attempt = .raised)
    (hlt : ¬ attempt < MAX_CONNECTION_ATTEMPTS - 1) :
    retryGo openRes bSeed attempt (n + 1) =
      .ok (.abandonedReturn,
        [.attemptStart attempt, .attemptFailed attempt, .abandonedKey]) := by
  simp [retryGo, hor, hlt]

lemma retryGo_succ_raised_cont {openRes : Nat → OpenResult} {bSeed : Nat → Nat}
    {attempt n : Nat} (hor : openRes attempt = .raised)
    (hlt : attempt < MAX_CONNECTION_ATTEMPTS - 1) :
    retryGo openRes bSeed attempt (n + 1) =
      match retryGo openRes bSeed (attempt + 1) n with
      | .error e => .error e
      | .ok (r, evs) =>
        .ok (r, [.attemptStart attempt, .attemptFailed attempt,
          .failSleep (60 + ((bSeed attempt % 191 : Nat) : Int))] ++ evs) := by
  simp only [retryGo, hor, hlt, if_true]
  rw [randintE_ok (by norm_num : (60:Int) ≤ 250)]
  norm_num

lemma retryGo_allfail (openRes : Nat → OpenResult) (bSeed : Nat → Nat)
    (hfail : ∀ n, openRes n = .raised) :
    ∀ fuel attempt, attempt + fuel = MAX_CONNECTION_ATTEMPTS → 1 ≤ fuel →
      ∃ evs, retryGo openRes bSeed attempt fuel = .ok (.abandonedReturn, evs) ∧
        evs.countP isAttemptStartEv = fuel ∧
        evs.countP isFailSleepEv = fuel - 1 ∧
        evs.getLast? = some .abandonedKey := by
  intro fuel
  induction fuel with
  | zero => intro attempt _ h1; omega
  | succ n ih =>
    intro attempt hsum _
    have hM : MAX_CONNECTION_ATTEMPTS = 10 := rfl
    rw [hM] at hsum
    by_cases hn : n = 0
    · subst hn
      have ha : attempt = 9 := by omega
      subst ha
      refine ⟨_, retryGo_succ_raised_last (hfail 9) (by rw [hM]; omega), ?_, ?_, ?_⟩ <;> rfl
    · have hlt : attempt < MAX_CONNECTION_ATTEMPTS - 1 := by rw [hM]; omega
      obtain ⟨evs', hrec, hc1, hc2, hlast⟩ := ih (attempt + 1) (by rw [hM]; omega) (by omega)
      refine ⟨[Event.attemptStart attempt, Event.attemptFailed attempt,
        Event.failSleep (60 + ((bSeed attempt % 191 : Nat) : Int))] ++ evs', ?_, ?_, ?_, ?_⟩
      · rw [retryGo_succ_raised_cont (hfail attempt) hlt, hrec]
      · simp [List.countP_append, List.countP_cons, isAttemptStartEv, hc1]
      · simp [List.countP_append, List.countP_cons, isFailSleepEv, hc2]
        omega
      · have hne : evs' ≠ [] := by
          intro hE; rw [hE] at hlast; simp at hlast
        rw [List.getLast?_append_of_ne_nil _ hne, hlast]

lemma retryGo_attempts_le (openRes : Nat → OpenResult) (bSeed : Nat → Nat) :
    ∀ fuel attempt r evs, retryGo openRes bSeed attempt fuel = .ok (r, evs) →
      evs.countP isAttemptStartEv ≤ fuel := by
  intro fuel
  induction fuel with
  | zero =>
    intro attempt r evs h
    simp only [retryGo, Except.ok.injEq, Prod.mk.injEq] at h
    rw [← h.2]
    simp
  | succ n ih =>
    intro attempt r evs h
    cases hor : openRes attempt with
    | returned s =>
      rw [retryGo_succ_returned hor] at h
      simp only [Except.ok.injEq, Prod.mk.injEq] at h
      rw [← h.2]
      simp [List.countP_cons, isAttemptStartEv]
    | raised =>
      by_cases hlt : attempt < MAX_CONNECTION_ATTEMPTS - 1
      · rw [retryGo_succ_raised_cont hor hlt] at h
        cases hrec : retryGo openRes bSeed (attempt + 1) n with
        | error e => rw [hrec] at h; exact absurd h (by simp)
        | ok out =>
          obtain ⟨r2, evs2⟩ := out
          rw [hrec] at h
          simp only [Except.ok.injEq, Prod.mk.injEq] at h
          rw [← h.2]
          have hle := ih (attempt + 1) r2 evs2 hrec
          simp [List.countP_append, List.countP_cons, isAttemptStartEv]
          omega
      · rw [retryGo_succ_raised_last hor hlt] at h
        simp only [Except.ok.injEq, Prod.mk.injEq] at h
        rw [← h.2]
        simp [List.countP_cons, isAttemptStartEv]

lemma retryGo_not_none (openRes : Nat → OpenResult) (bSeed : Nat → Nat)
    (hnn : ∀ n, openRes n ≠ .returned none) :
    ∀ fuel attempt evs, attempt + fuel = MAX_CONNECTION_ATTEMPTS → 1 ≤ fuel →
      retryGo openRes bSeed attempt fuel ≠ .ok (.fellThrough none, evs) := by
  intro fuel
  induction fuel with
  | zero => intro attempt evs hsum h1; omega
  | succ n ih =>
    intro attempt evs hsum _ h
    have hM : MAX_CONNECTION_ATTEMPTS = 10 := rfl
    rw [hM] at hsum
    cases hor : openRes attempt with
    | returned s =>
      cases s with
      | none => exact hnn attempt hor
      | some v =>
        rw [retryGo_succ_returned hor] at h
        simp at h
    | raised =>
      by_cases hlt : attempt < MAX_CONNECTION_ATTEMPTS - 1
      · rw [retryGo_succ_raised_cont hor hlt] at h
        cases hrec : retryGo openRes bSeed (attempt + 1) n with
        | error e => rw [hrec] at h; simp at h
        | ok out =>
          obtain ⟨r2, evs2⟩ := out
          rw [hrec] at h
          simp only [Except.ok.injEq, Prod.mk.injEq] at h
          have hn1 : 1 ≤ n := by rw [hM] at hlt; omega
          rw [h.1] at hrec
          exact ih (attempt + 1) evs2 (by rw [hM]; omega) hn1 hrec
      · rw [retryGo_succ_raised_last hor hlt] at h
        simp at h

lemma lifecycleIter_cases (t : Timing) (env : CycleEnv) (r : IterResult) (tr : List Event)
    (h : lifecycleIter t env = .ok (r, tr)) :
    (retryGo env.openRes env.backoffSeed 0 MAX_CONNECTION_ATTEMPTS = .ok (.abandonedReturn, tr) ∧
      r = .retAbandoned) ∨
    (retryGo env.openRes env.backoffSeed 0 MAX_CONNECTION_ATTEMPTS = .ok (.fellThrough none, tr) ∧
      r = .retSafeguard) ∨
    (∃ s evs rt dt,
      retryGo env.openRes env.backoffSeed 0 MAX_CONNECTION_ATTEMPTS = .ok (.fellThrough (some s), evs) ∧
      randintE t.run_time_min t.run_time_max env.runSeed = .ok rt ∧
      randintE t.downtime_min t.downtime_max env.downSeed = .ok dt ∧
      r = .nextCycle ∧ tr = evs ++ execPhase s rt dt env.outcome) := by
  unfold lifecycleIter at h
  cases hR : retryGo env.openRes env.backoffSeed 0 MAX_CONNECTION_ATTEMPTS with
  | error e => rw [hR] at h; exact absurd h (by simp)
  | ok out =>
    obtain ⟨re, evs⟩ := out
    rw [hR] at h
    cases re with
    | abandonedReturn =>
      simp only [Except.ok.injEq, Prod.mk.injEq] at h
      exact Or.inl ⟨by rw [h.2], h.1.symm⟩
    | fellThrough sbx =>
      cases sbx with
      | none =>
        simp only [Except.ok.injEq, Prod.mk.injEq] at h
        exact Or.inr (Or.inl ⟨by rw [h.2], h.1.symm⟩)
      | some s =>
        cases hrt : randintE t.run_time_min t.run_time_max env.runSeed with
        | error e => rw [hrt] at h; exact absurd h (by simp)
        | ok rt =>
          rw [hrt] at h
          cases hdt : randintE t.downtime_min t.downtime_max env.downSeed with
          | error e => rw [hdt] at h; exact absurd h (by simp)
          | ok dt =>
            rw [hdt] at h
            simp only [Except.ok.injEq, Prod.mk.injEq] at h
            exact Or.inr (Or.inr ⟨s, evs, rt, dt, rfl, rfl, rfl, h.1.symm, h.2.symm⟩)

lemma lifecycleIter_connected (t : Timing) (env : CycleEnv) (s : Nat) (evs : List Event)
    (h1 : t.run_time_min ≤ t.run_time_max) (h2 : t.downtime_min ≤ t.downtime_max)
    (h : retryGo env.openRes env.backoffSeed 0 MAX_CONNECTION_ATTEMPTS =
      .ok (.fellThrough (some s), evs)) :
    lifecycleIter t env = .ok (.nextCycle,
      evs ++ execPhase s
        (t.run_time_min + ((env.runSeed % (t.run_time_max - t.run_time_min + 1).toNat : Nat) : Int))
        (t.downtime_min + ((env.downSeed % (t.downtime_max - t.downtime_min + 1).toNat : Nat) : Int))
        env.outcome) := by
  unfold lifecycleIter
  rw [h, randintE_ok h1, randintE_ok h2]
  rfl

lemma lifecycleIter_isOk (t : Timing) (env : CycleEnv)
    (h1 : t.run_time_min ≤ t.run_time_max) (h2 : t.downtime_min ≤ t.downtime_max) :
    ∃ out, lifecycleIter t env = .ok out := by
  obtain ⟨⟨re, evs⟩, hR⟩ := retryGo_ok env.openRes env.backoffSeed MAX_CONNECTION_ATTEMPTS 0
  unfold lifecycleIter
  rw [hR]
  cases re with
  | abandonedReturn => exact ⟨_, rfl⟩
  | fellThrough sbx =>
    cases sbx with
    | none => exact ⟨_, rfl⟩
    | some s =>
      rw [randintE_ok h1, randintE_ok h2]
      exact ⟨_, rfl⟩

lemma lifecycleRun_isOk (t : Timing) (envs : Nat → CycleEnv)
    (h1 : t.run_time_min ≤ t.run_time_max) (h2 : t.downtime_min ≤ t.downtime_max) :
    ∀ fuel i, ∃ out, lifecycleRun t envs i fuel = .ok out := by
  intro fuel
  induction fuel with
  | zero => intro i; exact ⟨_, rfl⟩
  | succ n ih =>
    intro i
    obtain ⟨⟨r, evs⟩, hI⟩ := lifecycleIter_isOk t (envs i) h1 h2
    cases r with
    | retAbandoned => exact ⟨(.returnedAbandoned, evs), by simp [lifecycleRun, hI]⟩
    | retSafeguard => exact ⟨(.returnedSafeguard, evs), by simp [lifecycleRun, hI]⟩
    | nextCycle =>
      obtain ⟨⟨r2, evs2⟩, hrec⟩ := ih (i + 1)
      exact ⟨(r2, evs ++ evs2), by simp [lifecycleRun, hI, hrec]⟩

lemma lifecycleRun_no_safeguard (t : Timing) (envs : Nat → CycleEnv)
    (hnn : ∀ i n, (envs i).openRes n ≠ .returned none) :
    ∀ fuel i r tr, lifecycleRun t envs i fuel = .ok (r, tr) → r ≠ .returnedSafeguard := by
  intro fuel
  induction fuel with
  | zero =>
    intro i r tr h
    simp only [lifecycleRun, Except.ok.injEq, Prod.mk.injEq] at h
    rw [← h.1]
    simp
  | succ n ih =>
    intro i r tr h
    unfold lifecycleRun at h
    cases hI : lifecycleIter t (envs i) with
    | error e => rw [hI] at h; exact absurd h (by simp)
    | ok out =>
      obtain ⟨ri, evs⟩ := out
      rw [hI] at h
      cases ri with
      | retAbandoned =>
        simp only [Except.ok.injEq, Prod.mk.injEq] at h
        rw [← h.1]; simp
      | retSafeguard =>
        rcases lifecycleIter_cases t (envs i) .retSafeguard evs hI with
          ⟨_, hc⟩ | ⟨hc, _⟩ | ⟨s, evs2, rt, dt, _, _, _, hc, _⟩
        · exact absurd hc (by simp)
        · exact absurd hc
            (retryGo_not_none (envs i).openRes (envs i).backoffSeed (hnn i)
              MAX_CONNECTION_ATTEMPTS 0 evs rfl (by simp [MAX_CONNECTION_ATTEMPTS]))
        · exact absurd hc (by simp)
      | nextCycle =>
        cases hrec : lifecycleRun t envs (i + 1) n with
        | error e => rw [hrec] at h; exact absurd h (by simp)
        | ok out2 =>
          obtain ⟨r2, evs2⟩ := out2
          rw [hrec] at h
          simp only [Except.ok.injEq, Prod.mk.injEq] at h
          rw [← h.1]
          exact ih (i + 1) r2 evs2 hrec

lemma mem_specFirstSeen : ∀ l (x : String), x ∈ specFirstSeen l ↔ x ∈ l := by
  intro l
  induction l using specFirstSeen.induct with
  | case1 => intro x; simp [specFirstSeen]
  | case2 k rest ih =>
    intro x
    rw [specFirstSeen]
    constructor
    · intro hx
      rcases List.mem_cons.mp hx with rfl | hx
      · exact List.mem_cons_self _ _
      · exact List.mem_cons_of_mem _ (List.mem_of_mem_filter ((ih x).mp hx))
    · intro hx
      rcases List.mem_cons.mp hx with rfl | hx
      · exact List.mem_cons_self _ _
      · by_cases hxk : x = k
        · subst hxk; exact List.mem_cons_self _ _
        · exact List.mem_cons_of_mem _
            ((ih x).mpr (List.mem_filter.mpr ⟨hx, by simp [hxk]⟩))

lemma nodup_specFirstSeen : ∀ l : List String, (specFirstSeen l).Nodup := by
  intro l
  induction l using specFirstSeen.induct with
  | case1 => simp [specFirstSeen]
  | case2 k rest ih =>
    rw [specFirstSeen]
    refine List.nodup_cons.mpr ⟨?_, ih⟩
    intro hk
    have hm := List.mem_filter.mp ((mem_specFirstSeen _ k).mp hk)
    simp at hm

lemma dedupLoop_eq (src : List String) : ∀ acc : List String,
    dedupLoop src acc acc =
      acc ++ specFirstSeen (src.filter (fun x => decide (x ∉ acc))) := by
  induction src with
  | nil => intro acc; simp [dedupLoop, specFirstSeen]
  | cons k rest ih =>
    intro acc
    by_cases hk : k ∈ acc
    · rw [show dedupLoop (k :: rest) acc acc = dedupLoop rest acc acc from by
        simp [dedupLoop, hk]]
      rw [ih acc]
      have : (k :: rest).filter (fun x => decide (x ∉ acc)) =
          rest.filter (fun x => decide (x ∉ acc)) := by
        simp [List.filter_cons, hk]
      rw [this]
    · rw [show dedupLoop (k :: rest) acc acc = dedupLoop rest (acc ++ [k]) (acc ++ [k]) from by
        simp [dedupLoop, hk]]
      rw [ih (acc ++ [k])]
      have hfc : (k :: rest).filter (fun x => decide (x ∉ acc)) =
          k :: rest.filter (fun x => decide (x ∉ acc)) := by
        simp [List.filter_cons, hk]
      rw [hfc, specFirstSeen]
      have hff : (rest.filter (fun x => decide (x ∉ acc))).filter (fun x => decide (¬x = k)) =
          rest.filter (fun x => decide (x ∉ acc ++ [k])) := by
        rw [List.filter_filter]
        refine List.filter_congr ?_
        intro x _
        by_cases h1 : x = k <;> by_cases h2 : x ∈ acc <;> simp [h1, h2]
      rw [hff]
      simp

lemma registryKeys_eq (environ : List (String × String)) (overrides : List String) :
    registryKeys environ overrides = specFirstSeen (env_keys environ ++ overrides) := by
  unfold registryKeys
  rw [dedupLoop_eq]
  simp

lemma env_keys_trim (environ : List (String × String)) :
    ∀ v ∈ env_keys environ, pyStrip v ≠ "" := by
  intro v hv
  simp only [env_keys, List.mem_map] at hv
  obtain ⟨kv, hkv, rfl⟩ := hv
  have h2 := (List.mem_filter.mp hkv).2
  simp at h2
  exact h2.2

lemma launchLoop_eq_spec (keys : List String) (sSeed : Nat → Nat) :
    ∀ n i fuel, keys.length = i + n → n < fuel →
      launchLoop keys sSeed i fuel = .ok (specLaunch keys sSeed i n) := by
  intro n
  induction n with
  | zero =>
    intro i fuel hlen hfuel
    obtain ⟨f, rfl⟩ : ∃ f, fuel = f + 1 := ⟨fuel - 1, by omega⟩
    have hle : keys.length ≤ i := by omega
    simp [launchLoop, hle, specLaunch]
  | succ n ih =>
    intro i fuel hlen hfuel
    obtain ⟨f, rfl⟩ : ∃ f, fuel = f + 1 := ⟨fuel - 1, by omega⟩
    have hnle : ¬ keys.length ≤ i := by omega
    by_cases hlast : i < keys.length - 1
    · have hn1 : ¬ n = 0 := by omega
      rw [show launchLoop keys sSeed i (f + 1) =
          (match randintE 30 45 (sSeed i) with
           | .error e => .error e
           | .ok g =>
             match launchLoop keys sSeed (i + 1) f with
             | .error e => .error e
             | .ok evs => .ok (Event.spawn i (keys.getD i "") :: Event.gracePause g :: evs))
          from by simp [launchLoop, hnle, hlast]]
      rw [randintE_ok (by norm_num : (30:Int) ≤ 45)]
      rw [ih (i + 1) f (by omega) (by omega)]
      rw [show specLaunch keys sSeed i (n + 1) =
          Event.spawn i (keys.getD i "") ::
            Event.gracePause (30 + ((sSeed i % 16 : Nat) : Int)) ::
              specLaunch keys sSeed (i + 1) n
          from by simp [specLaunch, hn1]]
      norm_num
    · have hn0 : n = 0 := by omega
      subst hn0
      rw [show launchLoop keys sSeed i (f + 1) =
          (match launchLoop keys sSeed (i + 1) f with
           | .error e => .error e
           | .ok evs => .ok (Event.spawn i (keys.getD i "") :: evs))
          from by simp [launchLoop, hnle, hlast]]
      rw [ih (i + 1) f (by omega) (by omega)]
      simp [specLaunch]

lemma specLaunch_spawnCount (keys : List String) (sSeed : Nat → Nat) :
    ∀ n i, (specLaunch keys sSeed i n).countP isSpawnEv = n := by
  intro n
  induction n with
  | zero => intro i; simp [specLaunch]
  | succ n ih =>
    intro i
    by_cases hn : n = 0
    · subst hn; simp [specLaunch, List.countP_cons, isSpawnEv]
    · simp [specLaunch, hn, List.countP_cons, isSpawnEv, isPauseEv, ih (i + 1)]

lemma specLaunch_pauseCount (keys : List String) (sSeed : Nat → Nat) :
    ∀ n i, (specLaunch keys sSeed i n).countP isPauseEv = n - 1 := by
  intro n
  induction n with
  | zero => intro i; simp [specLaunch]
  | succ n ih =>
    intro i
    by_cases hn : n = 0
    · subst hn; simp [specLaunch, List.countP_cons, isPauseEv]
    · simp [specLaunch, hn, List.countP_cons, isSpawnEv, isPauseEv, ih (i + 1)]
      omega

lemma specLaunch_pauseBounds (keys : List String) (sSeed : Nat → Nat) :
    ∀ n i d, Event.gracePause d ∈ specLaunch keys sSeed i n → 30 ≤ d ∧ d ≤ 45 := by
  intro n
  induction n with
  | zero => intro i d hd; simp [specLaunch] at hd
  | succ n ih =>
    intro i d hd
    by_cases hn : n = 0
    · subst hn; simp [specLaunch] at hd
    · rw [show specLaunch keys sSeed i (n + 1) =
          Event.spawn i (keys.getD i "") ::
            Event.gracePause (30 + ((sSeed i % 16 : Nat) : Int)) ::
              specLaunch keys sSeed (i + 1) n
          from by simp [specLaunch, hn]] at hd
      rcases List.mem_cons.mp hd with hh | hd2
      · exact absurd hh (by simp)
      · rcases List.mem_cons.mp hd2 with hh | hd3
        · have : d = 30 + ((sSeed i % 16 : Nat) : Int) := by
            injection hh
          have hm : sSeed i % 16 < 16 := Nat.mod_lt _ (by omega)
          omega
        · exact ih (i + 1) d hd3

lemma specLaunch_spawnList (keys : List String) (sSeed : Nat → Nat) :
    ∀ n i, (specLaunch keys sSeed i n).filterMap spawnOf =
      (List.range' i n).map (fun j => (j, keys.getD j "")) := by
  intro n
  induction n with
  | zero => intro i; simp [specLaunch, List.range']
  | succ n ih =>
    intro i
    by_cases hn : n = 0
    · subst hn; simp [specLaunch, List.range', List.filterMap, spawnOf]
    · rw [show specLaunch keys sSeed i (n + 1) =
          Event.spawn i (keys.getD i "") ::
            Event.gracePause (30 + ((sSeed i % 16 : Nat) : Int)) ::
              specLaunch keys sSeed (i + 1) n
          from by simp [specLaunch, hn]]
      rw [show (List.range' i (n + 1)).map (fun j => (j, keys.getD j "")) =
          (i, keys.getD i "") :: (List.range' (i + 1) n).map (fun j => (j, keys.getD j ""))
          from by simp [List.range']]
      rw [← ih (i + 1)]
      simp [List.filterMap_cons, spawnOf]

lemma specLaunch_alt (keys : List String) (sSeed : Nat → Nat) :
    ∀ n i, 1 ≤ n → altSpawnPause (specLaunch keys sSeed i n) = true := by
  intro n
  induction n with
  | zero => intro i h; omega
  | succ n ih =>
    intro i _
    by_cases hn : n = 0
    · subst hn; simp [specLaunch, altSpawnPause, isSpawnEv]
    · rw [show specLaunch keys sSeed i (n + 1) =
          Event.spawn i (keys.getD i "") ::
            Event.gracePause (30 + ((sSeed i % 16 : Nat) : Int)) ::
              specLaunch keys sSeed (i + 1) n
          from by simp [specLaunch, hn]]
      rw [altSpawnPause]
      simp [isSpawnEv, isPauseEv, ih (i + 1) (by omega)]

lemma gatherSem_ok {α : Type} : ∀ outs : List (Except PyErr α),
    (∀ o ∈ outs, ∃ v, o = .ok v) →
    ∃ vs, gatherSem outs = .ok vs ∧ vs.length = outs.length := by
  intro outs
  induction outs with
  | nil => intro _; exact ⟨[], rfl, rfl⟩
  | cons o rest ih =>
    intro h
    obtain ⟨v, rfl⟩ := h o (List.mem_cons_self _ _)
    obtain ⟨vs, hvs, hlen⟩ := ih (fun o2 ho => h o2 (List.mem_cons_of_mem _ ho))
    exact ⟨v :: vs, by simp [gatherSem, hvs], by simp [hlen]⟩

lemma lifecycleRun_abandoned (t : Timing) (envs : Nat → CycleEnv) (i : Nat) (evs : List Event)
    (h : retryGo (envs i).openRes (envs i).backoffSeed 0 MAX_CONNECTION_ATTEMPTS =
      .ok (.abandonedReturn, evs)) :
    ∀ fuel, 1 ≤ fuel → lifecycleRun t envs i fuel = .ok (.returnedAbandoned, evs) := by
  intro fuel hf
  obtain ⟨f, rfl⟩ : ∃ f, fuel = f + 1 := ⟨fuel - 1, by omega⟩
  have hI : lifecycleIter t (envs i) = .ok (.retAbandoned, evs) := by
    unfold lifecycleIter
    rw [h]
  simp [lifecycleRun, hI]

lemma lifecycleIter_no_safeguard (t : Timing) (env : CycleEnv)
    (hnn : ∀ n, env.openRes n ≠ .returned none) :
    ∀ r tr, lifecycleIter t env = .ok (r, tr) → r ≠ .retSafeguard := by
  intro r tr h hr
  subst hr
  rcases lifecycleIter_cases t env _ tr h with
    ⟨_, hc⟩ | ⟨hc, _⟩ | ⟨s, evs, rt, dt, _, _, _, hc, _⟩
  · exact absurd hc (by simp)
  · exact absurd hc
      (retryGo_not_none env.openRes env.backoffSeed hnn MAX_CONNECTION_ATTEMPTS 0 tr rfl
        (by decide))
  · exact absurd hc (by simp)

lemma execPhase_launched {s s' : Nat} {rt dt rt' : Int} {o : ExecOutcome}
    (h : Event.launched rt' s' ∈ execPhase s rt dt o) : rt' = rt := by
  cases o <;> simp [execPhase] at h <;> tauto

lemma execPhase_cooldown {s : Nat} {rt dt dt' : Int} {o : ExecOutcome}
    (h : Event.cooldownSleep dt' ∈ execPhase s rt dt o) : dt' = dt := by
  cases o <;> simp [execPhase] at h <;> tauto

lemma mainSetup_proceed_valid (environ : List (String × String)) (a : Args)
    (keys : List String) (h : mainSetup environ a = .proceed keys) :
    a.run_time_min ≤ a.run_time_max ∧ a.downtime_min ≤ a.downtime_max := by
  by_cases hr : a.run_time_min > a.run_time_max
  · simp [mainSetup, hr] at h
  · by_cases hd : a.downtime_min > a.downtime_max
    · simp [mainSetup, hr, hd] at h
    · exact ⟨by omega, by omega⟩

/- ── Claim theorems ── -/

/-- Claim C1: for every credential key, the retry engine attempts at most 10
session opens; when every attempt fails the controller returns abandoned — the
same result for every remaining process lifetime (any fuel), so the key is
never retried — with exactly 9 backoff sleeps (one after each failed attempt
except the last) and no sleep after the final failure (the trace ends with the
abandonment). -/
theorem claim_C1 (t : Timing) (envs : Nat → CycleEnv)
    (hfail : ∀ n, (envs 0).openRes n = .raised) :
    (∃ tr, (∀ fuel, 1 ≤ fuel → lifecycleRun t envs 0 fuel = .ok (.returnedAbandoned, tr)) ∧
      tr.countP isAttemptStartEv = 10 ∧
      tr.countP isFailSleepEv = 9 ∧
      tr.getLast? = some .abandonedKey) ∧
    (∀ (openRes : Nat → OpenResult) (bSeed : Nat → Nat) r evs,
      retryGo openRes bSeed 0 MAX_CONNECTION_ATTEMPTS = .ok (r, evs) →
      evs.countP isAttemptStartEv ≤ 10) := by
  constructor
  · obtain ⟨evs, hR, hc1, hc2, hlast⟩ :=
      retryGo_allfail (envs 0).openRes (envs 0).backoffSeed hfail
        MAX_CONNECTION_ATTEMPTS 0 rfl (by decide)
    exact ⟨evs, lifecycleRun_abandoned t envs 0 evs hR, hc1, hc2, hlast⟩
  · intro openRes bSeed r evs h
    exact retryGo_attempts_le openRes bSeed MAX_CONNECTION_ATTEMPTS 0 r evs h

/-- An oracle on which every connection attempt fails. -/
def allFailEnvs : Nat → CycleEnv := fun _ =>
  { openRes := fun _ => .raised
    backoffSeed := fun _ => 0
    runSeed := 0
    downSeed := 0
    outcome := .completed }

theorem claim_C1_witness :
    (∃ tr, (∀ fuel, 1 ≤ fuel →
        lifecycleRun ⟨230, 340, 30, 45⟩ allFailEnvs 0 fuel = .ok (.returnedAbandoned, tr)) ∧
      tr.countP isAttemptStartEv = 10 ∧
      tr.countP isFailSleepEv = 9 ∧
      tr.getLast? = some .abandonedKey) ∧
    (∀ (openRes : Nat → OpenResult) (bSeed : Nat → Nat) r evs,
      retryGo openRes bSeed 0 MAX_CONNECTION_ATTEMPTS = .ok (r, evs) →
      evs.countP isAttemptStartEv ≤ 10) :=
  claim_C1 ⟨230, 340, 30, 45⟩ allFailEnvs (fun _ => rfl)

/-- Claim C2 counterexample: a whitespace-only explicit `--key` override is NOT
discarded by the Key Registry — the claim's "discarded from both sources" fails
on the override source. -/
theorem claim_C2_cex :
    registryKeys [] ["   "] = ["   "] ∧ pyStrip "   " = "" :=
  ⟨rfl, by decide⟩

/-- Claim C2 (amended): the Key Registry produces each distinct key exactly
once, in order of first appearance across the concatenation of the environment
source and then the override source; empty or whitespace-only entries are
discarded from the environment source only — override entries are taken
verbatim. -/
theorem claim_C2_amended (environ : List (String × String)) (overrides : List String) :
    registryKeys environ overrides = specFirstSeen (env_keys environ ++ overrides) ∧
    (registryKeys environ overrides).Nodup ∧
    (∀ k, k ∈ registryKeys environ overrides ↔ k ∈ env_keys environ ++ overrides) ∧
    (∀ k ∈ registryKeys environ overrides, (registryKeys environ overrides).count k = 1) ∧
    (∀ v ∈ env_keys environ, pyStrip v ≠ "") := by
  have heq := registryKeys_eq environ overrides
  have hnd : (registryKeys environ overrides).Nodup := by
    rw [heq]; exact nodup_specFirstSeen _
  refine ⟨heq, hnd, ?_, ?_, env_keys_trim environ⟩
  · intro k
    rw [heq]
    exact mem_specFirstSeen _ k
  · intro k hk
    exact List.count_eq_one_of_mem hnd hk

/-- Claim C6: any configuration violating a min ≤ max timing pair makes the
process exit with a configuration error and status 1 before any task is
created (the run trace is empty). -/
theorem claim_C6 (environ : List (String × String)) (a : Args) (sSeed : Nat → Nat)
    (hbad : a.run_time_min > a.run_time_max ∨ a.downtime_min > a.downtime_max) :
    ∃ msg, mainSetup environ a = .configExit msg ∧
      sysExitStatus (mainSetup environ a) = some 1 ∧
      mainRun environ a sSeed = .ok (some msg, []) := by
  by_cases hr : a.run_time_min > a.run_time_max
  · refine ⟨"Error: --run-time-min cannot be greater than --run-time-max", ?_, ?_, ?_⟩ <;>
      simp [mainSetup, mainRun, sysExitStatus, hr]
  · have hd : a.downtime_min > a.downtime_max := by tauto
    refine ⟨"Error: --downtime-min cannot be greater than --downtime-max", ?_, ?_, ?_⟩ <;>
      simp [mainSetup, mainRun, sysExitStatus, hr, hd]

theorem claim_C6_witness :
    ((⟨none, 230, 340, 50, 40⟩ : Args).run_time_min > (⟨none, 230, 340, 50, 40⟩ : Args).run_time_max ∨
      (⟨none, 230, 340, 50, 40⟩ : Args).downtime_min > (⟨none, 230, 340, 50, 40⟩ : Args).downtime_max) ∧
    ∃ msg, mainSetup [] ⟨none, 230, 340, 50, 40⟩ = .configExit msg ∧
      sysExitStatus (mainSetup [] ⟨none, 230, 340, 50, 40⟩) = some 1 ∧
      mainRun [] ⟨none, 230, 340, 50, 40⟩ (fun _ => 0) = .ok (some msg, []) :=
  ⟨by decide, claim_C6 [] ⟨none, 230, 340, 50, 40⟩ (fun _ => 0) (by decide)⟩

/-- Claim C7: with no usable environment keys and no overrides, the process
exits with a fatal configuration error and status 1 before creating any
controller task (the run trace is empty). -/
theorem claim_C7 (environ : List (String × String)) (a : Args) (sSeed : Nat → Nat)
    (henv : env_keys environ = []) (hov : a.key.getD [] = []) :
    ∃ msg, mainSetup environ a = .configExit msg ∧
      sysExitStatus (mainSetup environ a) = some 1 ∧
      mainRun environ a sSeed = .ok (some msg, []) := by
  by_cases hr : a.run_time_min > a.run_time_max
  · refine ⟨"Error: --run-time-min cannot be greater than --run-time-max", ?_, ?_, ?_⟩ <;>
      simp [mainSetup, mainRun, sysExitStatus, hr]
  · by_cases hd : a.downtime_min > a.downtime_max
    · refine ⟨"Error: --downtime-min cannot be greater than --downtime-max", ?_, ?_, ?_⟩ <;>
        simp [mainSetup, mainRun, sysExitStatus, hr, hd]
    · have hkeys : registryKeys environ (a.key.getD []) = [] := by
        rw [registryKeys_eq, henv, hov]
        simp [specFirstSeen]
      refine ⟨"No API keys found — set E2B_KEY_* or pass --key", ?_, ?_, ?_⟩ <;>
        simp [mainSetup, mainRun, sysExitStatus, hr, hd, hkeys]

theorem claim_C7_witness :
    env_keys [("PATH", "/usr/bin")] = [] ∧
    (Option.getD (none : Option (List String)) [] = []) ∧
    ∃ msg, mainSetup [("PATH", "/usr/bin")] ⟨none, 230, 340, 30, 45⟩ = .configExit msg ∧
      sysExitStatus (mainSetup [("PATH", "/usr/bin")] ⟨none, 230, 340, 30, 45⟩) = some 1 ∧
      mainRun [("PATH", "/usr/bin")] ⟨none, 230, 340, 30, 45⟩ (fun _ => 0) = .ok (some msg, []) :=
  ⟨rfl, rfl, claim_C7 [("PATH", "/usr/bin")] ⟨none, 230, 340, 30, 45⟩ (fun _ => 0) rfl rfl⟩

/-- Claim C10: assuming `AsyncSandbox.create` never returns a null session
without raising, the `if not sbx_instance: return` safeguard is unreachable:
no iteration result and no whole-run result is ever the safeguard return. -/
theorem claim_C10 (t : Timing) (envs : Nat → CycleEnv)
    (hnn : ∀ i n, (envs i).openRes n ≠ .returned none) :
    (∀ env : CycleEnv, (∀ n, env.openRes n ≠ .returned none) →
      ∀ r tr, lifecycleIter t env = .ok (r, tr) → r ≠ .retSafeguard) ∧
    (∀ fuel i r tr, lifecycleRun t envs i fuel = .ok (r, tr) → r ≠ .returnedSafeguard) := by
  constructor
  · intro env hn r tr h
    exact lifecycleIter_no_safeguard t env hn r tr h
  · intro fuel i r tr h
    exact lifecycleRun_no_safeguard t envs hnn fuel i r tr h

/-- An oracle whose open calls always return a live session. -/
def liveEnvs : Nat → CycleEnv := fun _ =>
  { openRes := fun _ => .returned (some 5)
    backoffSeed := fun _ => 0
    runSeed := 0
    downSeed := 0
    outcome := .completed }

theorem claim_C10_witness :
    (∀ i n, (liveEnvs i).openRes n ≠ .returned none) ∧
    ((∀ env : CycleEnv, (∀ n, env.openRes n ≠ .returned none) →
      ∀ r tr, lifecycleIter ⟨230, 340, 30, 45⟩ env = .ok (r, tr) → r ≠ .retSafeguard) ∧
    (∀ fuel i r tr, lifecycleRun ⟨230, 340, 30, 45⟩ liveEnvs i fuel = .ok (r, tr) →
      r ≠ .returnedSafeguard)) :=
  ⟨fun _ _ => by simp [liveEnvs], claim_C10 ⟨230, 340, 30, 45⟩ liveEnvs (fun _ _ => by simp [liveEnvs])⟩

/-- An oracle whose first open succeeds with session 7 and whose workload run
hits the deadline. -/
def connEnv : CycleEnv :=
  { openRes := fun _ => .returned (some 7)
    backoffSeed := fun _ => 0
    runSeed := 0
    downSeed := 0
    outcome := .deadlineElapsed }

/-- An oracle whose first open succeeds with session 7 and whose workload
completes early. -/
def cexEnvC3 : CycleEnv :=
  { openRes := fun _ => .returned (some 7)
    backoffSeed := fun _ => 0
    runSeed := 0
    downSeed := 0
    outcome := .completed }

/-- Claim C3 counterexample: at a configuration where the connection succeeds
on the first attempt and the workload exits on its own, the controller does not
terminate after the run (it proceeds to a new cycle), the wait is bounded by
the sampled 230-second deadline, and the session IS closed — there is no
persistent mode: the only behaviour is the cyclic one, whatever the
configuration. -/
theorem claim_C3_cex :
    lifecycleIter ⟨230, 340, 30, 45⟩ cexEnvC3 =
      .ok (.nextCycle, [.attemptStart 0, .sessionStarted, .launched 230 7,
        .sessionClosed 7, .cooldownSleep 30]) := rfl

/-- Claim C3 (amended): the program has a single operating mode, the cyclic
one: after every successful connection the controller samples a bounded run
deadline, closes the session when the run scope ends, sleeps the cooldown and
continues with a fresh cycle — it never terminates after one run and never
leaves the session open. -/
theorem claim_C3_amended (t : Timing) (env : CycleEnv) (s : Nat) (retrEvs : List Event)
    (h1 : t.run_time_min ≤ t.run_time_max) (h2 : t.downtime_min ≤ t.downtime_max)
    (hconn : retryGo env.openRes env.backoffSeed 0 MAX_CONNECTION_ATTEMPTS =
      .ok (.fellThrough (some s), retrEvs)) :
    (∀ r tr, lifecycleIter t env = .ok (r, tr) → r = .nextCycle) ∧
    (∃ rt dt, lifecycleIter t env = .ok (.nextCycle, retrEvs ++ execPhase s rt dt env.outcome) ∧
      t.run_time_min ≤ rt ∧ rt ≤ t.run_time_max ∧
      t.downtime_min ≤ dt ∧ dt ≤ t.downtime_max ∧
      Event.sessionClosed s ∈ execPhase s rt dt env.outcome ∧
      (execPhase s rt dt env.outcome).getLast? = some (.cooldownSleep dt)) := by
  have hIter := lifecycleIter_connected t env s retrEvs h1 h2 hconn
  have hm1 : env.runSeed % (t.run_time_max - t.run_time_min + 1).toNat <
      (t.run_time_max - t.run_time_min + 1).toNat := Nat.mod_lt _ (by omega)
  have hm2 : env.downSeed % (t.downtime_max - t.downtime_min + 1).toNat <
      (t.downtime_max - t.downtime_min + 1).toNat := Nat.mod_lt _ (by omega)
  constructor
  · intro r tr h
    rw [hIter] at h
    simp only [Except.ok.injEq, Prod.mk.injEq] at h
    exact h.1.symm
  · refine ⟨_, _, hIter, by omega, by omega, by omega, by omega, ?_, ?_⟩
    · cases env.outcome <;> simp [execPhase]
    · cases env.outcome <;> rfl

theorem claim_C3_amended_witness :
    ((230 : Int) ≤ 340) ∧ ((30 : Int) ≤ 45) ∧
    (retryGo connEnv.openRes connEnv.backoffSeed 0 MAX_CONNECTION_ATTEMPTS =
      .ok (.fellThrough (some 7), [.attemptStart 0, .sessionStarted])) ∧
    ((∀ r tr, lifecycleIter ⟨230, 340, 30, 45⟩ connEnv = .ok (r, tr) → r = .nextCycle) ∧
    (∃ rt dt, lifecycleIter ⟨230, 340, 30, 45⟩ connEnv =
        .ok (.nextCycle, [.attemptStart 0, .sessionStarted] ++ execPhase 7 rt dt connEnv.outcome) ∧
      (230 : Int) ≤ rt ∧ rt ≤ 340 ∧ (30 : Int) ≤ dt ∧ dt ≤ 45 ∧
      Event.sessionClosed 7 ∈ execPhase 7 rt dt connEnv.outcome ∧
      (execPhase 7 rt dt connEnv.outcome).getLast? = some (.cooldownSleep dt))) :=
  ⟨by decide, by decide, rfl,
    claim_C3_amended ⟨230, 340, 30, 45⟩ connEnv 7 [.attemptStart 0, .sessionStarted]
      (by decide) (by decide) rfl⟩

/-- Claim C4: in every cycle whose session opens successfully, the controller
proceeds to the cooldown sleep (the cycle trace ends with it) and then to a
fresh connection cycle, whatever the run outcome: a deadline elapse is logged
as the normal run-time-ended shutdown and not as an error, an execution error
is logged but does not abandon the key, and the cycle's session is closed
within the cycle (no session is reused). -/
theorem claim_C4 (t : Timing) (env : CycleEnv) (s : Nat) (retrEvs : List Event)
    (h1 : t.run_time_min ≤ t.run_time_max) (h2 : t.downtime_min ≤ t.downtime_max)
    (hconn : retryGo env.openRes env.backoffSeed 0 MAX_CONNECTION_ATTEMPTS =
      .ok (.fellThrough (some s), retrEvs)) :
    ∃ rt dt, lifecycleIter t env = .ok (.nextCycle, retrEvs ++ execPhase s rt dt env.outcome) ∧
      (execPhase s rt dt env.outcome).getLast? = some (.cooldownSleep dt) ∧
      t.downtime_min ≤ dt ∧ dt ≤ t.downtime_max ∧
      Event.sessionClosed s ∈ execPhase s rt dt env.outcome ∧
      (env.outcome = .deadlineElapsed →
        Event.runTimeEnded ∈ execPhase s rt dt env.outcome ∧
        Event.execError ∉ execPhase s rt dt env.outcome) ∧
      ((env.outcome = .waitRaised ∨ env.outcome = .launchRaised) →
        Event.execError ∈ execPhase s rt dt env.outcome) ∧
      (∀ (envs : Nat → CycleEnv) i fuel, envs i = env →
        lifecycleRun t envs i (fuel + 1) =
          (lifecycleRun t envs (i + 1) fuel).map
            (fun pr => (pr.1, (retrEvs ++ execPhase s rt dt env.outcome) ++ pr.2))) := by
  have hIter := lifecycleIter_connected t env s retrEvs h1 h2 hconn
  have hm2 : env.downSeed % (t.downtime_max - t.downtime_min + 1).toNat <
      (t.downtime_max - t.downtime_min + 1).toNat := Nat.mod_lt _ (by omega)
  refine ⟨_, _, hIter, ?_, by omega, by omega, ?_, ?_, ?_, ?_⟩
  · cases env.outcome <;> rfl
  · cases env.outcome <;> simp [execPhase]
  · intro ho
    rw [ho]
    simp [execPhase]
  · intro ho
    rcases ho with ho | ho <;> rw [ho] <;> simp [execPhase]
  · intro envs i fuel henv
    have hI : lifecycleIter t (envs i) =
        .ok (.nextCycle, retrEvs ++ execPhase s
          (t.run_time_min +
            ((env.runSeed % (t.run_time_max - t.run_time_min + 1).toNat : Nat) : Int))
          (t.downtime_min +
            ((env.downSeed % (t.downtime_max - t.downtime_min + 1).toNat : Nat) : Int))
          env.outcome) := by
      rw [henv]; exact hIter
    cases hrec : lifecycleRun t envs (i + 1) fuel with
    | error e => simp [lifecycleRun, hI, hrec, Except.map]
    | ok out =>
      obtain ⟨r2, evs2⟩ := out
      simp [lifecycleRun, hI, hrec, Except.map]

theorem claim_C4_witness :
    ((230 : Int) ≤ 340) ∧ ((30 : Int) ≤ 45) ∧
    (retryGo connEnv.openRes connEnv.backoffSeed 0 MAX_CONNECTION_ATTEMPTS =
      .ok (.fellThrough (some 7), [.attemptStart 0, .sessionStarted])) ∧
    (∃ rt dt, lifecycleIter ⟨230, 340, 30, 45⟩ connEnv =
        .ok (.nextCycle, [.attemptStart 0, .sessionStarted] ++ execPhase 7 rt dt connEnv.outcome) ∧
      (execPhase 7 rt dt connEnv.outcome).getLast? = some (.cooldownSleep dt) ∧
      (30 : Int) ≤ dt ∧ dt ≤ 45 ∧
      Event.sessionClosed 7 ∈ execPhase 7 rt dt connEnv.outcome ∧
      (connEnv.outcome = .deadlineElapsed →
        Event.runTimeEnded ∈ execPhase 7 rt dt connEnv.outcome ∧
        Event.execError ∉ execPhase 7 rt dt connEnv.outcome) ∧
      ((connEnv.outcome = .waitRaised ∨ connEnv.outcome = .launchRaised) →
        Event.execError ∈ execPhase 7 rt dt connEnv.outcome) ∧
      (∀ (envs : Nat → CycleEnv) i fuel, envs i = connEnv →
        lifecycleRun ⟨230, 340, 30, 45⟩ envs i (fuel + 1) =
          (lifecycleRun ⟨230, 340, 30, 45⟩ envs (i + 1) fuel).map
            (fun pr => (pr.1, ([.attemptStart 0, .sessionStarted] ++
              execPhase 7 rt dt connEnv.outcome) ++ pr.2)))) :=
  ⟨by decide, by decide, rfl,
    claim_C4 ⟨230, 340, 30, 45⟩ connEnv 7 [.attemptStart 0, .sessionStarted]
      (by decide) (by decide) rfl⟩

/-- Claim C5: for a non-empty deduplicated key list of length N the scheduler
creates exactly N tasks, one per key in key order, with exactly N-1 stagger
pauses, strictly alternating (none before the first spawn or after the last),
each pause within [30, 45]. -/
theorem claim_C5 (keys : List String) (sSeed : Nat → Nat) (hne : keys ≠ []) :
    ∃ evs, launchTrace keys sSeed = .ok evs ∧
      evs.countP isSpawnEv = keys.length ∧
      evs.countP isPauseEv = keys.length - 1 ∧
      (∀ d, Event.gracePause d ∈ evs → 30 ≤ d ∧ d ≤ 45) ∧
      evs.filterMap spawnOf = (List.range' 0 keys.length).map (fun j => (j, keys.getD j "")) ∧
      altSpawnPause evs = true := by
  refine ⟨specLaunch keys sSeed 0 keys.length,
    launchLoop_eq_spec keys sSeed keys.length 0 (keys.length + 1) (by omega) (by omega),
    specLaunch_spawnCount keys sSeed keys.length 0,
    specLaunch_pauseCount keys sSeed keys.length 0,
    fun d hd => specLaunch_pauseBounds keys sSeed keys.length 0 d hd,
    specLaunch_spawnList keys sSeed keys.length 0,
    specLaunch_alt keys sSeed keys.length 0 ?_⟩
  have := List.length_pos.mpr hne
  omega

theorem claim_C5_witness :
    (["A", "B"] ≠ ([] : List String)) ∧
    ∃ evs, launchTrace ["A", "B"] (fun _ => 0) = .ok evs ∧
      evs.countP isSpawnEv = (["A", "B"] : List String).length ∧
      evs.countP isPauseEv = (["A", "B"] : List String).length - 1 ∧
      (∀ d, Event.gracePause d ∈ evs → 30 ≤ d ∧ d ≤ 45) ∧
      evs.filterMap spawnOf =
        (List.range' 0 (["A", "B"] : List String).length).map
          (fun j => (j, (["A", "B"] : List String).getD j "")) ∧
      altSpawnPause evs = true :=
  ⟨by decide, claim_C5 ["A", "B"] (fun _ => 0) (by decide)⟩

/-- Claim C8: every sampled run duration and cooldown duration of a cycle lies
within its configured inclusive [min, max] bounds (in particular, with
run_time_min = 230 and run_time_max = 340 every run duration r satisfies
230 ≤ r ≤ 340). -/
theorem claim_C8 (t : Timing) (env : CycleEnv)
    (h1 : t.run_time_min ≤ t.run_time_max) (h2 : t.downtime_min ≤ t.downtime_max) :
    ∀ r tr, lifecycleIter t env = .ok (r, tr) →
      (∀ rt s, Event.launched rt s ∈ tr → t.run_time_min ≤ rt ∧ rt ≤ t.run_time_max) ∧
      (∀ dt, Event.cooldownSleep dt ∈ tr → t.downtime_min ≤ dt ∧ dt ≤ t.downtime_max) := by
  intro r tr h
  rcases lifecycleIter_cases t env r tr h with
    ⟨hR, _⟩ | ⟨hR, _⟩ | ⟨s, evs, rt, dt, hR, hrt, hdt, _, htr⟩
  · constructor
    · intro rt s hm
      have := retryGo_events env.openRes env.backoffSeed MAX_CONNECTION_ATTEMPTS 0 _ _ hR _ hm
      simp [isRetryEv] at this
    · intro dt hm
      have := retryGo_events env.openRes env.backoffSeed MAX_CONNECTION_ATTEMPTS 0 _ _ hR _ hm
      simp [isRetryEv] at this
  · constructor
    · intro rt s hm
      have := retryGo_events env.openRes env.backoffSeed MAX_CONNECTION_ATTEMPTS 0 _ _ hR _ hm
      simp [isRetryEv] at this
    · intro dt hm
      have := retryGo_events env.openRes env.backoffSeed MAX_CONNECTION_ATTEMPTS 0 _ _ hR _ hm
      simp [isRetryEv] at this
  · subst htr
    have hrtB := randintE_bounds h1 hrt
    have hdtB := randintE_bounds h2 hdt
    constructor
    · intro rt' s' hm
      rcases List.mem_append.mp hm with hm | hm
      · have := retryGo_events env.openRes env.backoffSeed MAX_CONNECTION_ATTEMPTS 0 _ _ hR _ hm
        simp [isRetryEv] at this
      · have hrr := execPhase_launched hm
        subst hrr
        exact hrtB
    · intro dt' hm
      rcases List.mem_append.mp hm with hm | hm
      · have := retryGo_events env.openRes env.backoffSeed MAX_CONNECTION_ATTEMPTS 0 _ _ hR _ hm
        simp [isRetryEv] at this
      · have hdd := execPhase_cooldown hm
        subst hdd
        exact hdtB

theorem claim_C8_witness :
    ((230 : Int) ≤ 340) ∧ ((30 : Int) ≤ 45) ∧
    (∀ r tr, lifecycleIter ⟨230, 340, 30, 45⟩ connEnv = .ok (r, tr) →
      (∀ rt s, Event.launched rt s ∈ tr → (230 : Int) ≤ rt ∧ rt ≤ 340) ∧
      (∀ dt, Event.cooldownSleep dt ∈ tr → (30 : Int) ≤ dt ∧ dt ≤ 45)) :=
  ⟨by decide, by decide, claim_C8 ⟨230, 340, 30, 45⟩ connEnv (by decide) (by decide)⟩

/-- Claim C9: no error from one key's controller ever reaches another
controller or the scheduler: under the validated timing configuration (which
is exactly what `mainSetup` guarantees before any task exists) every
controller task's outcome is a normal return, so the aggregate
`asyncio.gather` wait collects all N outcomes and never short-circuits. -/
theorem claim_C9 (t : Timing) (envss : Nat → Nat → CycleEnv) (n fuel : Nat)
    (h1 : t.run_time_min ≤ t.run_time_max) (h2 : t.downtime_min ≤ t.downtime_max) :
    (∀ environ a keys, mainSetup environ a = .proceed keys →
      a.run_time_min ≤ a.run_time_max ∧ a.downtime_min ≤ a.downtime_max) ∧
    (∀ o ∈ taskOutcomes t envss n fuel, ∃ v, o = .ok v) ∧
    (∃ vs, gatherSem (taskOutcomes t envss n fuel) = .ok vs ∧ vs.length = n) := by
  have hall : ∀ o ∈ taskOutcomes t envss n fuel, ∃ v, o = .ok v := by
    intro o ho
    simp only [taskOutcomes, List.mem_map, List.mem_range] at ho
    obtain ⟨i, _, rfl⟩ := ho
    exact lifecycleRun_isOk t (envss i) h1 h2 fuel 0
  refine ⟨fun environ a keys h => mainSetup_proceed_valid environ a keys h, hall, ?_⟩
  obtain ⟨vs, hvs, hlen⟩ := gatherSem_ok _ hall
  refine ⟨vs, hvs, ?_⟩
  simp only [taskOutcomes, List.length_map, List.length_range] at hlen
  exact hlen

theorem claim_C9_witness :
    ((230 : Int) ≤ 340) ∧ ((30 : Int) ≤ 45) ∧
    ((∀ environ a keys, mainSetup environ a = .proceed keys →
      a.run_time_min ≤ a.run_time_max ∧ a.downtime_min ≤ a.downtime_max) ∧
    (∀ o ∈ taskOutcomes ⟨230, 340, 30, 45⟩ (fun _ => allFailEnvs) 2 1, ∃ v, o = .ok v) ∧
    (∃ vs, gatherSem (taskOutcomes ⟨230, 340, 30, 45⟩ (fun _ => allFailEnvs) 2 1) = .ok vs ∧
      vs.length = 2)) :=
  ⟨by decide, by decide,
    claim_C9 ⟨230, 340, 30, 45⟩ (fun _ => allFailEnvs) 2 1 (by decide) (by decide)⟩

end E2B
